import Mathlib

/-!
Verification of the StreamHQ room-signaling server (server embedded from the
repository source: room store, admission, session coordinator, relay and
room-list broadcasting).  The JavaScript server is translated into a shallow
embedding: the module-scope maps become a `ServerState` record, each handler
becomes a pure function from state (plus the inbound frame) to a new state
and a list of outbound frames, and the SHA-256 digest is abstracted as a
parameter `hashKey : String → String` (the code only ever compares digests
for equality).
-/

namespace StreamHQ

/-- MAX_ROOMS constant from the source. -/
def MAX_ROOMS : Nat := 5

/-- ROOM_CLEANUP_TIMEOUT constant from the source (milliseconds). -/
def ROOM_CLEANUP_TIMEOUT : Nat := 60000

/-- A room record, embedding the object built in createRoom.  Slots hold
connection references (connections are modelled as natural numbers); the
pending cleanup timer is modelled as the absolute deadline it would fire at. -/
structure Room where
  id : String
  name : String
  keyHash : String
  broadcaster : Option Nat
  viewer : Option Nat
  createdAt : Nat
  cleanupTimer : Option Nat
deriving Repr, DecidableEq

/-- One entry of the public room list, embedding the object built in
getRoomList.  It has exactly the four fields id, name, participants, isFull. -/
structure RoomInfo where
  id : String
  name : String
  participants : Nat
  isFull : Bool
deriving Repr, DecidableEq

/-- Server-to-client frames (the JSON objects the server writes). -/
inductive Frame where
  | pong
  | roomCreated (roomId name role : String)
  | roomJoined (roomId name role : String)
  | roomLeft
  | roomError (code error : String)
  | roomList (rooms : List RoomInfo)
  | viewerJoined (viewerId : String)
  | viewerLeft (viewerId : String)
  | broadcasterAvailable
  | broadcasterLeft
  | noBroadcaster
  | offer (payload : String)
  | answer (viewerId : String) (payload : String)
  | iceCandidate (viewerId : Option String) (payload : String)
  | chatBroadcast (sender message : String) (timestamp : Nat)
deriving Repr, DecidableEq

/-- Client-to-server frames, as dispatched by handleMessage.  Opaque payloads
(offer, answer, candidate) are modelled as strings. -/
inductive ClientMsg where
  | ping
  | createRoom (name : Option String) (key : String)
  | joinRoom (roomId : String) (key : String)
  | leaveRoom
  | getRoomList
  | broadcasterReady
  | viewerJoin
  | offer (viewerId : Option String) (payload : String)
  | answer (payload : String)
  | iceCandidate (viewerId : Option String) (payload : String)
  | chatMessage (message : String)
  | unknown (ty : String)
deriving Repr, DecidableEq

/-- The module-scope mutable state of the server: the rooms map, the
client-to-room map, the client-id map with its counter, the set of connected
clients (wss.clients) and the current clock in milliseconds. -/
structure ServerState where
  rooms : List (String × Room)
  clientRooms : List (Nat × String)
  clientIds : List (Nat × String)
  nextClientId : Nat
  clients : List Nat
  now : Nat
deriving Repr, DecidableEq

/-- Lookup in an association list (JS Map.get / WeakMap.get). -/
def aLookup {α β : Type} [DecidableEq α] (l : List (α × β)) (k : α) : Option β :=
  match l with
  | [] => none
  | (k', v) :: t => if k = k' then some v else aLookup t k

/-- JS Map.set: replace the first binding of the key in place, else append. -/
def aListInsert {α β : Type} [DecidableEq α] (l : List (α × β)) (k : α) (v : β) :
    List (α × β) :=
  match l with
  | [] => [(k, v)]
  | (k', v') :: t => if k = k' then (k, v) :: t else (k', v') :: aListInsert t k v

/-- JS Map.delete: remove the first binding of the key. -/
def eraseKey {α β : Type} [DecidableEq α] (l : List (α × β)) (k : α) :
    List (α × β) :=
  match l with
  | [] => []
  | (k', v') :: t => if k = k' then t else (k', v') :: eraseKey t k

/-- JS truthiness of `x || dflt` on an optional string: undefined and the
empty string both fall back to the default. -/
def jsStringOr (x : Option String) (dflt : String) : String :=
  match x with
  | none => dflt
  | some s => if s = "" then dflt else s

/-- validateKey from the source: hash the submitted key and compare to the
stored digest. -/
def validateKey (hashKey : String → String) (inputKey storedHash : String) : Bool :=
  hashKey inputKey == storedHash

/-- getClientId from the source: return the existing id for the connection,
or mint `client-N` from the counter and record it. -/
def getClientId (s : ServerState) (ws : Nat) : String × ServerState :=
  match aLookup s.clientIds ws with
  | some cid => (cid, s)
  | none =>
    let cid := "client-" ++ toString s.nextClientId
    (cid, { s with clientIds := aListInsert s.clientIds ws cid,
                   nextClientId := s.nextClientId + 1 })

/-- Number of occupied slots of a room, as computed in getRoomList. -/
def participantCount (room : Room) : Nat :=
  (if room.broadcaster.isSome then 1 else 0) + (if room.viewer.isSome then 1 else 0)

/-- One entry of getRoomList for a stored (id, room) pair. -/
def roomListEntry (p : String × Room) : RoomInfo :=
  let participants := participantCount p.2
  { id := p.1, name := p.2.name, participants := participants,
    isFull := decide (participants ≥ 2) }

/-- getRoomList from the source: the public snapshot over all rooms. -/
def getRoomList (s : ServerState) : List RoomInfo :=
  s.rooms.map roomListEntry

/-- broadcastRoomList from the source: send the snapshot to every connected
client. -/
def broadcastRoomList (s : ServerState) : List (Nat × Frame) :=
  s.clients.map fun c => (c, Frame.roomList (getRoomList s))

/-- Result of createRoom / joinRoom (the JS object with either an error code
and message, or success data). -/
inductive RoomResult where
  | err (code message : String)
  | ok (roomId name role : String)
deriving Repr, DecidableEq

/-- createRoom from the source.  The random draw of generateRoomId is made an
explicit argument newRoomId.  Returns the new state, the frames emitted by
broadcastRoomList, and the result object. -/
def createRoom (hashKey : String → String) (s : ServerState) (ws : Nat)
    (name : Option String) (key : String) (newRoomId : String) :
    ServerState × List (Nat × Frame) × RoomResult :=
  if MAX_ROOMS ≤ s.rooms.length then
    (s, [], .err "MAX_ROOMS" "Maximum 5 rooms reached. Please join an existing room.")
  else
    match aLookup s.clientRooms ws with
    | some _ => (s, [], .err "ALREADY_IN_ROOM" "You are already in a room. Leave first.")
    | none =>
      let room : Room :=
        { id := newRoomId, name := jsStringOr name "Unnamed Room",
          keyHash := hashKey key, broadcaster := some ws, viewer := none,
          createdAt := s.now, cleanupTimer := none }
      let s' : ServerState :=
        { s with rooms := aListInsert s.rooms newRoomId room,
                 clientRooms := aListInsert s.clientRooms ws newRoomId }
      (s', broadcastRoomList s', .ok newRoomId room.name "broadcaster")

/-- The tail of joinRoom after the role has been decided: record the binding,
broadcast the room list, then notify the counterpart (viewer-joined with the
joiner's id, or broadcaster-available). -/
def joinCommit (s : ServerState) (ws : Nat) (roomId : String) (room' : Room)
    (role : String) : ServerState × List (Nat × Frame) × RoomResult :=
  let s1 : ServerState :=
    { s with rooms := aListInsert s.rooms roomId room',
             clientRooms := aListInsert s.clientRooms ws roomId }
  let listFrames := broadcastRoomList s1
  if role = "viewer" then
    match room'.broadcaster with
    | some b =>
      let p := getClientId s1 ws
      (p.2, listFrames ++ [(b, Frame.viewerJoined p.1)], .ok roomId room'.name role)
    | none => (s1, listFrames, .ok roomId room'.name role)
  else
    match room'.viewer with
    | some v => (s1, listFrames ++ [(v, Frame.broadcasterAvailable)],
                 .ok roomId room'.name role)
    | none => (s1, listFrames, .ok roomId room'.name role)

/-- joinRoom from the source: reject if already bound, then if the room is
unknown, then if the digest check fails; otherwise take the first empty slot
in the order (broadcaster, viewer), clearing any pending cleanup timer, or
reject ROOM_FULL when both slots are taken. -/
def joinRoom (hashKey : String → String) (s : ServerState) (ws : Nat)
    (roomId key : String) : ServerState × List (Nat × Frame) × RoomResult :=
  match aLookup s.clientRooms ws with
  | some _ => (s, [], .err "ALREADY_IN_ROOM" "You are already in a room. Leave first.")
  | none =>
    match aLookup s.rooms roomId with
    | none => (s, [], .err "ROOM_NOT_FOUND" "Room does not exist.")
    | some room =>
      if validateKey hashKey key room.keyHash = false then
        (s, [], .err "INVALID_KEY" "Incorrect room key.")
      else
        match room.broadcaster, room.viewer with
        | none, _ =>
          joinCommit s ws roomId
            { room with broadcaster := some ws, cleanupTimer := none } "broadcaster"
        | some _, none =>
          joinCommit s ws roomId
            { room with viewer := some ws, cleanupTimer := none } "viewer"
        | some _, some _ =>
          (s, [], .err "ROOM_FULL" "Room already has 2 participants.")

/-- The slot-clearing part of leaveRoom: null out whichever slot the leaving
connection occupies and build the counterpart notification.  Returns the
updated room, the notification frames, and the (possibly id-minting) state. -/
def leaveSlot (s : ServerState) (ws : Nat) (room : Room) :
    Room × List (Nat × Frame) × ServerState :=
  if room.broadcaster = some ws then
    ({ room with broadcaster := none },
     (match room.viewer with
      | some v => [(v, Frame.broadcasterLeft)]
      | none => []), s)
  else if room.viewer = some ws then
    match room.broadcaster with
    | some b =>
      let p := getClientId s ws
      ({ room with viewer := none }, [(b, Frame.viewerLeft p.1)], p.2)
    | none => ({ room with viewer := none }, [], s)
  else (room, [], s)

/-- leaveRoom from the source.  If the connection is unbound, do nothing.
Otherwise clear its slot, notify the counterpart, unbind it, schedule the
cleanup deadline when both slots became empty, and broadcast the room list. -/
def leaveRoom (s : ServerState) (ws : Nat) : ServerState × List (Nat × Frame) :=
  match aLookup s.clientRooms ws with
  | none => (s, [])
  | some roomId =>
    match aLookup s.rooms roomId with
    | none => ({ s with clientRooms := eraseKey s.clientRooms ws }, [])
    | some room =>
      let t := leaveSlot s ws room
      let room2 :=
        if t.1.broadcaster = none ∧ t.1.viewer = none then
          { t.1 with cleanupTimer := some (s.now + ROOM_CLEANUP_TIMEOUT) }
        else t.1
      let s1 : ServerState :=
        { t.2.2 with rooms := aListInsert t.2.2.rooms roomId room2,
                     clientRooms := eraseKey t.2.2.clientRooms ws }
      (s1, t.2.1 ++ broadcastRoomList s1)

/-- The body of the setTimeout callback scheduled in leaveRoom: when it runs,
delete the room only if both slots are still empty, and broadcast. -/
def fireCleanup (s : ServerState) (roomId : String) :
    ServerState × List (Nat × Frame) :=
  match aLookup s.rooms roomId with
  | none => (s, [])
  | some room =>
    if room.broadcaster = none ∧ room.viewer = none then
      let s1 : ServerState := { s with rooms := eraseKey s.rooms roomId }
      (s1, broadcastRoomList s1)
    else (s, [])

/-- handleMessage from the source: the frame dispatcher.  newRoomId is the
random room id that createRoom would draw.  A chat-message frame has no case
in the source switch and falls through to the default, which only logs. -/
def handleMessage (hashKey : String → String) (s : ServerState) (ws : Nat)
    (msg : ClientMsg) (newRoomId : String) : ServerState × List (Nat × Frame) :=
  match msg with
  | .ping => (s, [(ws, Frame.pong)])
  | .createRoom name key =>
    let r := createRoom hashKey s ws name key newRoomId
    match r.2.2 with
    | .err code m => (r.1, r.2.1 ++ [(ws, Frame.roomError code m)])
    | .ok rid nm role => (r.1, r.2.1 ++ [(ws, Frame.roomCreated rid nm role)])
  | .joinRoom roomId key =>
    let r := joinRoom hashKey s ws roomId key
    match r.2.2 with
    | .err code m => (r.1, r.2.1 ++ [(ws, Frame.roomError code m)])
    | .ok rid nm role => (r.1, r.2.1 ++ [(ws, Frame.roomJoined rid nm role)])
  | .leaveRoom =>
    let r := leaveRoom s ws
    (r.1, r.2 ++ [(ws, Frame.roomLeft)])
  | .getRoomList => (s, [(ws, Frame.roomList (getRoomList s))])
  | .broadcasterReady =>
    match aLookup s.clientRooms ws with
    | none => (s, [])
    | some roomId =>
      match aLookup s.rooms roomId with
      | none => (s, [])
      | some room =>
        match room.viewer with
        | some v =>
          let p := getClientId s v
          (p.2, [(ws, Frame.viewerJoined p.1)])
        | none => (s, [])
  | .viewerJoin =>
    match aLookup s.clientRooms ws with
    | none => (s, [])
    | some roomId =>
      match aLookup s.rooms roomId with
      | none => (s, [])
      | some room =>
        match room.broadcaster with
        | some b =>
          let p := getClientId s ws
          (p.2, [(b, Frame.viewerJoined p.1)])
        | none => (s, [(ws, Frame.noBroadcaster)])
  | .offer _ payload =>
    match aLookup s.clientRooms ws with
    | none => (s, [])
    | some roomId =>
      match aLookup s.rooms roomId with
      | none => (s, [])
      | some room =>
        match room.viewer with
        | none => (s, [])
        | some v => (s, [(v, Frame.offer payload)])
  | .answer payload =>
    match aLookup s.clientRooms ws with
    | none => (s, [])
    | some roomId =>
      match aLookup s.rooms roomId with
      | none => (s, [])
      | some room =>
        match room.broadcaster with
        | some b =>
          let p := getClientId s ws
          (p.2, [(b, Frame.answer p.1 payload)])
        | none => (s, [])
  | .iceCandidate _ payload =>
    match aLookup s.clientRooms ws with
    | none => (s, [])
    | some roomId =>
      match aLookup s.rooms roomId with
      | none => (s, [])
      | some room =>
        if room.broadcaster = some ws then
          match room.viewer with
          | some v => (s, [(v, Frame.iceCandidate none payload)])
          | none => (s, [])
        else if room.viewer = some ws then
          match room.broadcaster with
          | some b =>
            let p := getClientId s ws
            (p.2, [(b, Frame.iceCandidate (some p.1) payload)])
          | none => (s, [])
        else (s, [])
  | .chatMessage _ => (s, [])
  | .unknown _ => (s, [])

/-- External events driving the server: a connection is accepted, a
connection closes, a frame arrives, a pending cleanup deadline fires, or the
clock advances. -/
inductive Event where
  | connect (ws : Nat)
  | disconnect (ws : Nat)
  | message (ws : Nat) (msg : ClientMsg) (newRoomId : String)
  | timerFire (roomId : String)
  | tick (dt : Nat)
deriving Repr

/-- One step of the server: the wss connection handler (mint id, send the
snapshot), the close handler (leaveRoom), handleMessage, the cleanup timer
firing at or after its deadline, or time passing. -/
def stepEvent (hashKey : String → String) (s : ServerState) (e : Event) :
    Option (ServerState × List (Nat × Frame)) :=
  match e with
  | .connect ws =>
    if ws ∈ s.clients then none
    else
      let p := getClientId s ws
      let s2 : ServerState := { p.2 with clients := ws :: p.2.clients }
      some (s2, [(ws, Frame.roomList (getRoomList s2))])
  | .disconnect ws =>
    if ws ∈ s.clients then
      let s1 : ServerState := { s with clients := s.clients.erase ws }
      some (leaveRoom s1 ws)
    else none
  | .message ws msg newRoomId =>
    if ws ∈ s.clients then some (handleMessage hashKey s ws msg newRoomId) else none
  | .timerFire roomId =>
    match aLookup s.rooms roomId with
    | some room =>
      match room.cleanupTimer with
      | some deadline =>
        if deadline ≤ s.now then some (fireCleanup s roomId) else none
      | none => none
    | none => none
  | .tick dt => some ({ s with now := s.now + dt }, [])

/-- The state at process start: no rooms, no bindings, counter at 1. -/
def initState : ServerState :=
  { rooms := [], clientRooms := [], clientIds := [], nextClientId := 1,
    clients := [], now := 0 }

/-- Reachability of a server state from process start under any sequence of
events. -/
inductive Reachable (hashKey : String → String) : ServerState → Prop
  | init : Reachable hashKey initState
  | step {s : ServerState} {e : Event} {s' : ServerState}
      {sends : List (Nat × Frame)} :
      Reachable hashKey s → stepEvent hashKey s e = some (s', sends) →
      Reachable hashKey s'

/-! ### Concrete states used as test vectors -/

/-- A concrete injective stand-in for the digest function, used to run the
model on explicit inputs. -/
def demoHash : String → String := fun s => "#" ++ s

/-- A concrete full room: connection 1 broadcasts, connection 2 views. -/
def roomX : Room :=
  { id := "room-ab12cd34", name := "movie", keyHash := demoHash "hunter2",
    broadcaster := some 1, viewer := some 2, createdAt := 0, cleanupTimer := none }

/-- A concrete server state holding the full room plus a third idle client. -/
def sFull : ServerState :=
  { rooms := [("room-ab12cd34", roomX)],
    clientRooms := [(1, "room-ab12cd34"), (2, "room-ab12cd34")],
    clientIds := [(1, "client-1"), (2, "client-2"), (3, "client-3")],
    nextClientId := 4, clients := [1, 2, 3], now := 1000 }

/-- A concrete empty room pending cleanup, to populate states at the cap. -/
def emptyRoom (n : String) : Room :=
  { id := n, name := "idle", keyHash := demoHash "k",
    broadcaster := none, viewer := none, createdAt := 0,
    cleanupTimer := some 60000 }

/-- A concrete room occupied only by broadcaster 1. -/
def roomOnly1 : Room :=
  { id := "room-ab12cd34", name := "movie", keyHash := demoHash "hunter2",
    broadcaster := some 1, viewer := none, createdAt := 0, cleanupTimer := none }

/-- A concrete state in which connection 1 alone occupies the room. -/
def sOnly1 : ServerState :=
  { rooms := [("room-ab12cd34", roomOnly1)],
    clientRooms := [(1, "room-ab12cd34")],
    clientIds := [(1, "client-1"), (2, "client-2")],
    nextClientId := 3, clients := [1, 2], now := 4000 }

/-- A concrete room occupied only by viewer 2. -/
def roomV : Room :=
  { id := "room-ab12cd34", name := "movie", keyHash := demoHash "hunter2",
    broadcaster := none, viewer := some 2, createdAt := 0, cleanupTimer := none }

/-- A concrete state in which connection 2 alone views the room. -/
def sViewerOnly : ServerState :=
  { rooms := [("room-ab12cd34", roomV)],
    clientRooms := [(2, "room-ab12cd34")],
    clientIds := [(1, "client-1"), (2, "client-2")],
    nextClientId := 3, clients := [1, 2], now := 2000 }

/-- A concrete lobby state: two connected clients, no rooms yet. -/
def sLobby : ServerState :=
  { rooms := [], clientRooms := [],
    clientIds := [(1, "client-1"), (2, "client-2")],
    nextClientId := 3, clients := [1, 2], now := 0 }

/-- A concrete state holding one empty room whose cleanup deadline passed. -/
def sPending : ServerState :=
  { rooms := [("room-ab12cd34",
      { id := "room-ab12cd34", name := "movie", keyHash := demoHash "hunter2",
        broadcaster := none, viewer := none, createdAt := 0,
        cleanupTimer := some 61000 })],
    clientRooms := [],
    clientIds := [(1, "client-1"), (2, "client-2")],
    nextClientId := 3, clients := [1, 2], now := 61000 }

/-- A concrete state at the room cap in which every room is empty. -/
def s5 : ServerState :=
  { rooms := [("room-01010101", emptyRoom "room-01010101"),
              ("room-02020202", emptyRoom "room-02020202"),
              ("room-03030303", emptyRoom "room-03030303"),
              ("room-04040404", emptyRoom "room-04040404"),
              ("room-05050505", emptyRoom "room-05050505")],
    clientRooms := [],
    clientIds := [(6, "client-6")],
    nextClientId := 7, clients := [6], now := 500 }

/-! ### Association-list lemmas -/

theorem aLookup_aListInsert_self {α β : Type} [DecidableEq α]
    (l : List (α × β)) (k : α) (v : β) : aLookup (aListInsert l k v) k = some v := by
  induction l with
  | nil => simp [aListInsert, aLookup]
  | cons p t ih =>
    by_cases h : k = p.1
    · simp [aListInsert, aLookup, h]
    · simp [aListInsert, aLookup, h, ih]

theorem aLookup_aListInsert_ne {α β : Type} [DecidableEq α]
    (l : List (α × β)) (k k' : α) (v : β) (h : k' ≠ k) :
    aLookup (aListInsert l k v) k' = aLookup l k' := by
  induction l with
  | nil => simp [aListInsert, aLookup, h]
  | cons p t ih =>
    by_cases hk : k = p.1
    · subst hk
      simp [aListInsert, aLookup, h]
    · by_cases hk' : k' = p.1
      · simp [aListInsert, aLookup, hk, hk']
      · simp [aListInsert, aLookup, hk, hk', ih]

theorem length_aListInsert_of_lookup {α β : Type} [DecidableEq α]
    (l : List (α × β)) (k : α) (v v' : β) (h : aLookup l k = some v) :
    (aListInsert l k v').length = l.length := by
  induction l with
  | nil => simp [aLookup] at h
  | cons p t ih =>
    by_cases hk : k = p.1
    · simp [aListInsert, hk]
    · simp [aLookup, hk] at h
      simp [aListInsert, hk, ih h]

theorem length_aListInsert_le {α β : Type} [DecidableEq α]
    (l : List (α × β)) (k : α) (v : β) :
    (aListInsert l k v).length ≤ l.length + 1 := by
  induction l with
  | nil => simp [aListInsert]
  | cons p t ih =>
    by_cases hk : k = p.1
    · simp [aListInsert, hk]
    · simp only [aListInsert, hk, if_false, List.length_cons]
      omega

theorem length_eraseKey_le {α β : Type} [DecidableEq α]
    (l : List (α × β)) (k : α) : (eraseKey l k).length ≤ l.length := by
  induction l with
  | nil => simp [eraseKey]
  | cons p t ih =>
    by_cases hk : k = p.1
    · simp only [eraseKey, if_pos hk, List.length_cons]
      omega
    · simp only [eraseKey, hk, if_false, List.length_cons]
      omega

theorem aLookup_eraseKey_self {α β : Type} [DecidableEq α]
    (l : List (α × β)) (k : α) (h : (l.map Prod.fst).Nodup) :
    aLookup (eraseKey l k) k = none := by
  induction l with
  | nil => simp [eraseKey, aLookup]
  | cons p t ih =>
    simp only [List.map_cons, List.nodup_cons] at h
    by_cases hk : k = p.1
    · subst hk
      simp only [eraseKey, if_pos rfl]
      -- the key does not occur in the tail
      clear ih
      induction t with
      | nil => simp [aLookup]
      | cons q u ihq =>
        simp only [List.mem_map, List.mem_cons] at h
        have hq : p.1 ≠ q.1 := by
          intro hx
          exact h.1 ⟨q, Or.inl rfl, hx.symm⟩
        have hu : (q.1 :: u.map Prod.fst).Nodup := h.2
        simp only [aLookup, hq, if_false]
        apply ihq
        constructor
        · intro hm
          rcases List.mem_map.mp hm with ⟨r, hr, hrk⟩
          exact h.1 ⟨r, Or.inr hr, hrk⟩
        · exact (List.nodup_cons.mp hu).2
    · simp only [eraseKey, hk, if_false, aLookup]
      exact ih h.2

theorem aLookup_eraseKey_ne {α β : Type} [DecidableEq α]
    (l : List (α × β)) (k k' : α) (h : k' ≠ k) :
    aLookup (eraseKey l k) k' = aLookup l k' := by
  induction l with
  | nil => simp [eraseKey]
  | cons p t ih =>
    by_cases hk : k = p.1
    · subst hk
      simp [eraseKey, aLookup, h]
    · by_cases hk' : k' = p.1
      · simp [eraseKey, aLookup, hk, hk']
      · simp [eraseKey, aLookup, hk, hk', ih]

/-! ### Operation-level lemmas -/

theorem getClientId_rooms (s : ServerState) (ws : Nat) :
    (getClientId s ws).2.rooms = s.rooms := by
  unfold getClientId
  split <;> rfl

theorem getClientId_clientRooms (s : ServerState) (ws : Nat) :
    (getClientId s ws).2.clientRooms = s.clientRooms := by
  unfold getClientId
  split <;> rfl

theorem getClientId_clients (s : ServerState) (ws : Nat) :
    (getClientId s ws).2.clients = s.clients := by
  unfold getClientId
  split <;> rfl

theorem getClientId_now (s : ServerState) (ws : Nat) :
    (getClientId s ws).2.now = s.now := by
  unfold getClientId
  split <;> rfl

theorem getClientId_of_known (s : ServerState) (ws : Nat) (cid : String)
    (h : aLookup s.clientIds ws = some cid) : getClientId s ws = (cid, s) := by
  unfold getClientId
  rw [h]

theorem leaveSlot_rooms (s : ServerState) (ws : Nat) (room : Room) :
    (leaveSlot s ws room).2.2.rooms = s.rooms := by
  unfold leaveSlot
  split
  · rfl
  · split
    · split
      · exact getClientId_rooms s ws
      · rfl
    · rfl

theorem leaveSlot_clientRooms (s : ServerState) (ws : Nat) (room : Room) :
    (leaveSlot s ws room).2.2.clientRooms = s.clientRooms := by
  unfold leaveSlot
  split
  · rfl
  · split
    · split
      · exact getClientId_clientRooms s ws
      · rfl
    · rfl

theorem leaveSlot_clients (s : ServerState) (ws : Nat) (room : Room) :
    (leaveSlot s ws room).2.2.clients = s.clients := by
  unfold leaveSlot
  split
  · rfl
  · split
    · split
      · exact getClientId_clients s ws
      · rfl
    · rfl

theorem joinCommit_rooms (s : ServerState) (ws : Nat) (roomId : String)
    (room' : Room) (role : String) :
    (joinCommit s ws roomId room' role).1.rooms = aListInsert s.rooms roomId room' := by
  unfold joinCommit
  split
  · split
    · simp [getClientId]
      split <;> rfl
    · rfl
  · split <;> rfl

theorem createRoom_rooms_le (hashKey : String → String) (s : ServerState)
    (ws : Nat) (name : Option String) (key newRoomId : String)
    (h : s.rooms.length ≤ MAX_ROOMS) :
    (createRoom hashKey s ws name key newRoomId).1.rooms.length ≤ MAX_ROOMS := by
  unfold createRoom
  split
  · exact h
  · next hlt =>
    split
    · exact h
    · simp only []
      calc (aListInsert s.rooms newRoomId _).length ≤ s.rooms.length + 1 :=
            length_aListInsert_le _ _ _
        _ ≤ MAX_ROOMS := by omega

theorem joinRoom_rooms_length (hashKey : String → String) (s : ServerState)
    (ws : Nat) (roomId key : String) :
    (joinRoom hashKey s ws roomId key).1.rooms.length = s.rooms.length := by
  unfold joinRoom
  split
  · rfl
  · split
    · rfl
    · next room hroom =>
      split
      · rfl
      · split
        · rw [joinCommit_rooms]
          exact length_aListInsert_of_lookup _ _ _ _ hroom
        · rw [joinCommit_rooms]
          exact length_aListInsert_of_lookup _ _ _ _ hroom
        · rfl

theorem leaveRoom_rooms_length (s : ServerState) (ws : Nat) :
    (leaveRoom s ws).1.rooms.length = s.rooms.length := by
  unfold leaveRoom
  split
  · rfl
  · split
    · rfl
    · next roomId _ room hroom =>
      simp only [leaveSlot_rooms]
      exact length_aListInsert_of_lookup _ _ _ _ hroom

theorem fireCleanup_rooms_le (s : ServerState) (roomId : String) :
    (fireCleanup s roomId).1.rooms.length ≤ s.rooms.length := by
  unfold fireCleanup
  split
  · exact Nat.le_refl _
  · split
    · exact length_eraseKey_le _ _
    · exact Nat.le_refl _

theorem handleMessage_rooms_le (hashKey : String → String) (s : ServerState)
    (ws : Nat) (msg : ClientMsg) (newRoomId : String)
    (h : s.rooms.length ≤ MAX_ROOMS) :
    (handleMessage hashKey s ws msg newRoomId).1.rooms.length ≤ MAX_ROOMS := by
  cases msg with
  | ping => exact h
  | getRoomList => exact h
  | chatMessage m => exact h
  | unknown t => exact h
  | createRoom name key =>
    simp only [handleMessage]
    split <;> exact createRoom_rooms_le hashKey s ws name key newRoomId h
  | joinRoom rid key =>
    simp only [handleMessage]
    split <;> (rw [joinRoom_rooms_length]; exact h)
  | leaveRoom =>
    simp only [handleMessage]
    rw [leaveRoom_rooms_length]
    exact h
  | broadcasterReady =>
    simp only [handleMessage]
    split
    · exact h
    · split
      · exact h
      · split
        · simp only [getClientId_rooms]
          exact h
        · exact h
  | viewerJoin =>
    simp only [handleMessage]
    split
    · exact h
    · split
      · exact h
      · split
        · simp only [getClientId_rooms]
          exact h
        · exact h
  | offer vid payload =>
    simp only [handleMessage]
    split
    · exact h
    · split
      · exact h
      · split
        · exact h
        · exact h
  | answer payload =>
    simp only [handleMessage]
    split
    · exact h
    · split
      · exact h
      · split
        · simp only [getClientId_rooms]
          exact h
        · exact h
  | iceCandidate vid payload =>
    simp only [handleMessage]
    split
    · exact h
    · split
      · exact h
      · split
        · split
          · exact h
          · exact h
        · split
          · split
            · simp only [getClientId_rooms]
              exact h
            · exact h
          · exact h

theorem stepEvent_rooms_le (hashKey : String → String) (s s' : ServerState)
    (e : Event) (sends : List (Nat × Frame))
    (hstep : stepEvent hashKey s e = some (s', sends))
    (h : s.rooms.length ≤ MAX_ROOMS) : s'.rooms.length ≤ MAX_ROOMS := by
  cases e with
  | connect ws =>
    simp only [stepEvent] at hstep
    split at hstep
    · cases hstep
    · injection hstep with h'
      injection h' with h1 h2
      rw [← h1]
      simp only [getClientId_rooms]
      exact h
  | disconnect ws =>
    simp only [stepEvent] at hstep
    split at hstep
    · injection hstep with h'
      have h1 : s' = (leaveRoom { s with clients := s.clients.erase ws } ws).1 := by
        rw [h']
      rw [h1, leaveRoom_rooms_length]
      exact h
    · cases hstep
  | message ws m nid =>
    simp only [stepEvent] at hstep
    split at hstep
    · injection hstep with h'
      have h1 : s' = (handleMessage hashKey s ws m nid).1 := by rw [h']
      rw [h1]
      exact handleMessage_rooms_le hashKey s ws m nid h
    · cases hstep
  | timerFire roomId =>
    simp only [stepEvent] at hstep
    split at hstep
    · split at hstep
      · split at hstep
        · injection hstep with h'
          have h1 : s' = (fireCleanup s roomId).1 := by rw [h']
          rw [h1]
          exact Nat.le_trans (fireCleanup_rooms_le s roomId) h
        · cases hstep
      · cases hstep
    · cases hstep
  | tick dt =>
    injection hstep with h'
    injection h' with h1 h2
    rw [← h1]
    exact h

theorem rooms_le_of_reachable (hashKey : String → String) (s : ServerState)
    (h : Reachable hashKey s) : s.rooms.length ≤ MAX_ROOMS := by
  induction h with
  | init => exact Nat.zero_le _
  | step hr hstep ih => exact stepEvent_rooms_le _ _ _ _ _ hstep ih

/-! ### Further operation-level helper lemmas -/

theorem leaveRoom_unbound (s : ServerState) (ws : Nat)
    (h : aLookup s.clientRooms ws = none) : leaveRoom s ws = (s, []) := by
  unfold leaveRoom
  rw [h]

theorem leaveRoom_clientRooms_of_bound (s : ServerState) (ws : Nat)
    (rid : String) (h : aLookup s.clientRooms ws = some rid) :
    (leaveRoom s ws).1.clientRooms = eraseKey s.clientRooms ws := by
  simp only [leaveRoom, h]
  split
  · rfl
  · simp only [leaveSlot_clientRooms]

theorem joinCommit_result (s : ServerState) (ws : Nat) (roomId : String)
    (room' : Room) (role : String) :
    (joinCommit s ws roomId room' role).2.2 = RoomResult.ok roomId room'.name role := by
  unfold joinCommit
  split
  · split <;> rfl
  · split <;> rfl

theorem createRoom_err_state (hashKey : String → String) (s : ServerState)
    (ws : Nat) (name : Option String) (key nid code m : String)
    (h : (createRoom hashKey s ws name key nid).2.2 = RoomResult.err code m) :
    createRoom hashKey s ws name key nid = (s, [], RoomResult.err code m) ∧
    (code = "MAX_ROOMS" ∨ code = "ALREADY_IN_ROOM") ∧ m ≠ "" := by
  by_cases hc : MAX_ROOMS ≤ s.rooms.length
  · have he : createRoom hashKey s ws name key nid =
        (s, [], RoomResult.err "MAX_ROOMS"
          "Maximum 5 rooms reached. Please join an existing room.") := by
      simp only [createRoom, if_pos hc]
    rw [he] at h
    have h2 : RoomResult.err "MAX_ROOMS"
        "Maximum 5 rooms reached. Please join an existing room." =
        RoomResult.err code m := h
    injection h2 with hx hy
    subst hx
    subst hy
    exact ⟨he, Or.inl rfl, by decide⟩
  · cases hcr : aLookup s.clientRooms ws with
    | some rid0 =>
      have he : createRoom hashKey s ws name key nid =
          (s, [], RoomResult.err "ALREADY_IN_ROOM"
            "You are already in a room. Leave first.") := by
        simp only [createRoom, if_neg hc, hcr]
      rw [he] at h
      have h2 : RoomResult.err "ALREADY_IN_ROOM"
          "You are already in a room. Leave first." =
          RoomResult.err code m := h
      injection h2 with hx hy
      subst hx
      subst hy
      exact ⟨he, Or.inr rfl, by decide⟩
    | none =>
      have h2 : (createRoom hashKey s ws name key nid).2.2 =
          RoomResult.ok nid (jsStringOr name "Unnamed Room") "broadcaster" := by
        simp only [createRoom, if_neg hc, hcr]
      rw [h2] at h
      cases h

theorem joinRoom_err_state (hashKey : String → String) (s : ServerState)
    (ws : Nat) (rid key code m : String)
    (h : (joinRoom hashKey s ws rid key).2.2 = RoomResult.err code m) :
    joinRoom hashKey s ws rid key = (s, [], RoomResult.err code m) ∧
    (code = "ALREADY_IN_ROOM" ∨ code = "ROOM_NOT_FOUND" ∨ code = "INVALID_KEY" ∨
      code = "ROOM_FULL") ∧ m ≠ "" := by
  cases hcr : aLookup s.clientRooms ws with
  | some rid0 =>
    have he : joinRoom hashKey s ws rid key =
        (s, [], RoomResult.err "ALREADY_IN_ROOM"
          "You are already in a room. Leave first.") := by
      simp only [joinRoom, hcr]
    rw [he] at h
    have h2 : RoomResult.err "ALREADY_IN_ROOM"
        "You are already in a room. Leave first." =
        RoomResult.err code m := h
    injection h2 with hx hy
    subst hx
    subst hy
    exact ⟨he, Or.inl rfl, by decide⟩
  | none =>
    cases hr : aLookup s.rooms rid with
    | none =>
      have he : joinRoom hashKey s ws rid key =
          (s, [], RoomResult.err "ROOM_NOT_FOUND" "Room does not exist.") := by
        simp only [joinRoom, hcr, hr]
      rw [he] at h
      have h2 : RoomResult.err "ROOM_NOT_FOUND" "Room does not exist." =
          RoomResult.err code m := h
      injection h2 with hx hy
      subst hx
      subst hy
      exact ⟨he, Or.inr (Or.inl rfl), by decide⟩
    | some room =>
      by_cases hkey : validateKey hashKey key room.keyHash = false
      · have he : joinRoom hashKey s ws rid key =
            (s, [], RoomResult.err "INVALID_KEY" "Incorrect room key.") := by
          simp only [joinRoom, hcr, hr, if_pos hkey]
        rw [he] at h
        have h2 : RoomResult.err "INVALID_KEY" "Incorrect room key." =
            RoomResult.err code m := h
        injection h2 with hx hy
        subst hx
        subst hy
        exact ⟨he, Or.inr (Or.inr (Or.inl rfl)), by decide⟩
      · cases hb : room.broadcaster with
        | none =>
          have h2 : (joinRoom hashKey s ws rid key).2.2 =
              RoomResult.ok rid
                ({ room with broadcaster := some ws, cleanupTimer := none } : Room).name
                "broadcaster" := by
            simp only [joinRoom, hcr, hr, if_neg hkey, hb]
            exact joinCommit_result s ws rid _ _
          rw [h2] at h
          cases h
        | some b =>
          cases hv : room.viewer with
          | none =>
            have h2 : (joinRoom hashKey s ws rid key).2.2 =
                RoomResult.ok rid
                  ({ room with viewer := some ws, cleanupTimer := none } : Room).name
                  "viewer" := by
              simp only [joinRoom, hcr, hr, if_neg hkey, hb, hv]
              exact joinCommit_result s ws rid _ _
            rw [h2] at h
            cases h
          | some v =>
            have he : joinRoom hashKey s ws rid key =
                (s, [], RoomResult.err "ROOM_FULL" "Room already has 2 participants.") := by
              simp only [joinRoom, hcr, hr, if_neg hkey, hb, hv]
            rw [he] at h
            have h2 : RoomResult.err "ROOM_FULL" "Room already has 2 participants." =
                RoomResult.err code m := h
            injection h2 with hx hy
            subst hx
            subst hy
            exact ⟨he, Or.inr (Or.inr (Or.inr rfl)), by decide⟩

theorem leaveRoom_last_broadcaster (s : ServerState) (ws : Nat) (rid : String)
    (room : Room) (hcr : aLookup s.clientRooms ws = some rid)
    (hr : aLookup s.rooms rid = some room)
    (hb : room.broadcaster = some ws) (hv : room.viewer = none) :
    aLookup (leaveRoom s ws).1.rooms rid =
      some { room with broadcaster := none,
                       cleanupTimer := some (s.now + ROOM_CLEANUP_TIMEOUT) } := by
  simp only [leaveRoom, hcr, hr, leaveSlot, hb, hv, if_pos rfl]
  simp only [and_self, if_pos]
  exact aLookup_aListInsert_self _ _ _

theorem leaveRoom_last_viewer (s : ServerState) (ws : Nat) (rid : String)
    (room : Room) (hcr : aLookup s.clientRooms ws = some rid)
    (hr : aLookup s.rooms rid = some room)
    (hb : room.broadcaster = none) (hv : room.viewer = some ws) :
    aLookup (leaveRoom s ws).1.rooms rid =
      some { room with viewer := none,
                       cleanupTimer := some (s.now + ROOM_CLEANUP_TIMEOUT) } := by
  simp only [leaveRoom, hcr, hr, leaveSlot, hb, hv]
  simp only [reduceCtorEq, if_false, if_pos rfl, and_self, if_pos]
  exact aLookup_aListInsert_self _ _ _

theorem joinRoom_ok_cancels_timer (hashKey : String → String) (s : ServerState)
    (ws : Nat) (rid key : String) (room : Room)
    (hcr : aLookup s.clientRooms ws = none)
    (hr : aLookup s.rooms rid = some room)
    (hkey : validateKey hashKey key room.keyHash = true)
    (hfree : room.broadcaster = none ∨ room.viewer = none) :
    ∃ (room' : Room) (role : String),
      (joinRoom hashKey s ws rid key).2.2 = RoomResult.ok rid room.name role ∧
      aLookup (joinRoom hashKey s ws rid key).1.rooms rid = some room' ∧
      room'.cleanupTimer = none := by
  have hkey' : ¬ validateKey hashKey key room.keyHash = false := by
    rw [hkey]
    decide
  cases hb : room.broadcaster with
  | none =>
    refine ⟨{ room with broadcaster := some ws, cleanupTimer := none }, "broadcaster", ?_, ?_, rfl⟩
    · simp only [joinRoom, hcr, hr, if_neg hkey', hb]
      exact joinCommit_result s ws rid _ _
    · simp only [joinRoom, hcr, hr, if_neg hkey', hb, joinCommit_rooms]
      exact aLookup_aListInsert_self _ _ _
  | some b =>
    cases hv : room.viewer with
    | none =>
      refine ⟨{ room with viewer := some ws, cleanupTimer := none }, "viewer", ?_, ?_, rfl⟩
      · simp only [joinRoom, hcr, hr, if_neg hkey', hb, hv]
        exact joinCommit_result s ws rid _ _
      · simp only [joinRoom, hcr, hr, if_neg hkey', hb, hv, joinCommit_rooms]
        exact aLookup_aListInsert_self _ _ _
    | some v =>
      rw [hb] at hfree
      rw [hv] at hfree
      rcases hfree with h | h <;> cases h


/-! ### Claim theorems -/

/-- C1: the specification requires a chat-message frame from a bound
connection to be relayed to the opposite slot as a chat-broadcast carrying
the sender role, the verbatim text and a server timestamp.  The dispatcher
in the source has no chat-message case at all: the frame falls through to
the default arm, which only logs, so no frame is emitted and no state
changes — shown in general and at the concrete failing input (the
broadcaster of a full room sends "Hello!", the viewer receives nothing). -/
theorem chat_message_has_no_handler :
    (∀ (hashKey : String → String) (s : ServerState) (ws : Nat) (m nid : String),
      handleMessage hashKey s ws (ClientMsg.chatMessage m) nid = (s, [])) ∧
    handleMessage demoHash sFull 1 (ClientMsg.chatMessage "Hello!") "" = (sFull, []) :=
  ⟨fun _ _ _ _ _ => rfl, rfl⟩

/-- C5: in every reachable server state the room map holds at most 5 rooms,
and a create-room frame arriving when the count equals the cap produces
exactly a MAX_ROOMS room-error with no state change. -/
theorem room_cap_invariant :
    (∀ (hashKey : String → String) (s : ServerState),
      Reachable hashKey s → s.rooms.length ≤ MAX_ROOMS) ∧
    (∀ (hashKey : String → String) (s : ServerState) (ws : Nat)
       (name : Option String) (key nid : String),
      s.rooms.length = MAX_ROOMS →
      handleMessage hashKey s ws (ClientMsg.createRoom name key) nid =
        (s, [(ws, Frame.roomError "MAX_ROOMS"
          "Maximum 5 rooms reached. Please join an existing room.")])) := by
  constructor
  · exact fun hashKey s h => rooms_le_of_reachable hashKey s h
  · intro hashKey s ws name key nid hlen
    have he : createRoom hashKey s ws name key nid =
        (s, [], RoomResult.err "MAX_ROOMS"
          "Maximum 5 rooms reached. Please join an existing room.") := by
      unfold createRoom
      rw [if_pos (by rw [hlen])]
    simp only [handleMessage, he, List.nil_append]

/-- C5 witness: the invariant applied to the initial state, and the cap
rejection applied to a concrete state holding five rooms. -/
theorem room_cap_invariant_witness :
    initState.rooms.length ≤ MAX_ROOMS ∧
    handleMessage demoHash s5 6 (ClientMsg.createRoom (some "x") "k") "room-0f0f0f0f" =
      (s5, [(6, Frame.roomError "MAX_ROOMS"
        "Maximum 5 rooms reached. Please join an existing room.")]) :=
  ⟨room_cap_invariant.1 demoHash initState Reachable.init,
   room_cap_invariant.2 demoHash s5 6 (some "x") "k" "room-0f0f0f0f" (by decide)⟩

/-- C7: leave is idempotent.  A leave from an unbound connection changes
nothing; after any leave the same connection is unbound, so a second leave
is a no-op; and a transport close of an unbound connection changes neither
the room map nor the bindings. -/
theorem leaveRoom_idempotent :
    (∀ (s : ServerState) (ws : Nat),
      aLookup s.clientRooms ws = none → leaveRoom s ws = (s, [])) ∧
    (∀ (s : ServerState) (ws : Nat),
      (s.clientRooms.map Prod.fst).Nodup →
      leaveRoom (leaveRoom s ws).1 ws = ((leaveRoom s ws).1, [])) ∧
    (∀ (hashKey : String → String) (s s' : ServerState) (ws : Nat)
       (sends : List (Nat × Frame)),
      aLookup s.clientRooms ws = none →
      stepEvent hashKey s (Event.disconnect ws) = some (s', sends) →
      s'.rooms = s.rooms ∧ s'.clientRooms = s.clientRooms) := by
  refine ⟨fun s ws h => leaveRoom_unbound s ws h, ?_, ?_⟩
  · intro s ws hn
    cases h : aLookup s.clientRooms ws with
    | none =>
      rw [leaveRoom_unbound s ws h]
      exact leaveRoom_unbound s ws h
    | some rid =>
      apply leaveRoom_unbound
      rw [leaveRoom_clientRooms_of_bound s ws rid h]
      exact aLookup_eraseKey_self _ _ hn
  · intro hashKey s s' ws sends h hstep
    simp only [stepEvent] at hstep
    split at hstep
    · rw [leaveRoom_unbound { s with clients := s.clients.erase ws } ws h] at hstep
      injection hstep with h'
      injection h' with h1 h2
      rw [← h1]
      exact ⟨rfl, rfl⟩
    · cases hstep

/-- C7 witness: the unbound no-op, the two-leaves-one-change law, and the
unbound transport close, each at a concrete state. -/
theorem leaveRoom_idempotent_witness :
    leaveRoom sFull 3 = (sFull, []) ∧
    leaveRoom (leaveRoom sFull 1).1 1 = ((leaveRoom sFull 1).1, []) ∧
    (({ sFull with clients := [1, 2] } : ServerState).rooms = sFull.rooms ∧
     ({ sFull with clients := [1, 2] } : ServerState).clientRooms = sFull.clientRooms) :=
  ⟨leaveRoom_idempotent.1 sFull 3 (by decide),
   leaveRoom_idempotent.2.1 sFull 1 (by decide),
   leaveRoom_idempotent.2.2 demoHash sFull ({ sFull with clients := [1, 2] })
     3 [] (by decide) (by decide)⟩

/-- C10: implicit consequence of the cleanup grace: a room whose two slots
are both empty still occupies its entry in the room map, so five empty
rooms already saturate the cap and create-room fails with MAX_ROOMS; and
when the last occupant leaves, the room record stays in the map (only the
deadline is scheduled), keeping the count unchanged. -/
theorem empty_rooms_count_toward_cap :
    (∀ (hashKey : String → String) (s : ServerState) (ws : Nat)
       (name : Option String) (key nid : String),
      s.rooms.length = MAX_ROOMS →
      (∀ p ∈ s.rooms, p.2.broadcaster = none ∧ p.2.viewer = none) →
      createRoom hashKey s ws name key nid =
        (s, [], RoomResult.err "MAX_ROOMS"
          "Maximum 5 rooms reached. Please join an existing room.")) ∧
    (∀ (s : ServerState) (ws : Nat) (rid : String) (room : Room),
      aLookup s.clientRooms ws = some rid →
      aLookup s.rooms rid = some room →
      room.broadcaster = some ws → room.viewer = none →
      (aLookup (leaveRoom s ws).1.rooms rid).isSome = true ∧
      (leaveRoom s ws).1.rooms.length = s.rooms.length) := by
  constructor
  · intro hashKey s ws name key nid hlen hempty
    unfold createRoom
    rw [if_pos (by rw [hlen])]
  · intro s ws rid room hcr hr hb hv
    refine ⟨?_, leaveRoom_rooms_length s ws⟩
    rw [leaveRoom_last_broadcaster s ws rid room hcr hr hb hv]
    rfl

/-- C10 witness: five empty rooms reject a create, and the last occupant
leaving a one-person room keeps the room record in the map. -/
theorem empty_rooms_count_toward_cap_witness :
    createRoom demoHash s5 6 (some "y") "k" "room-0e0e0e0e" =
      (s5, [], RoomResult.err "MAX_ROOMS"
        "Maximum 5 rooms reached. Please join an existing room.") ∧
    ((aLookup (leaveRoom sOnly1 1).1.rooms "room-ab12cd34").isSome = true ∧
     (leaveRoom sOnly1 1).1.rooms.length = sOnly1.rooms.length) :=
  ⟨empty_rooms_count_toward_cap.1 demoHash s5 6 (some "y") "k" "room-0e0e0e0e"
     (by decide) (by decide),
   empty_rooms_count_toward_cap.2 sOnly1 1 "room-ab12cd34" roomOnly1
     (by decide) (by decide) (by decide) (by decide)⟩


/-- C3: join-room applies its checks with exactly the precedence
ALREADY_IN_ROOM, then ROOM_NOT_FOUND, then INVALID_KEY, then slot
assignment in the order (broadcaster, viewer), and ROOM_FULL only when both
slots are occupied. -/
theorem joinRoom_check_precedence :
    ∀ (hashKey : String → String) (s : ServerState) (ws : Nat) (rid key : String),
    ((aLookup s.clientRooms ws).isSome = true →
      joinRoom hashKey s ws rid key =
        (s, [], RoomResult.err "ALREADY_IN_ROOM" "You are already in a room. Leave first.")) ∧
    (aLookup s.clientRooms ws = none → aLookup s.rooms rid = none →
      joinRoom hashKey s ws rid key =
        (s, [], RoomResult.err "ROOM_NOT_FOUND" "Room does not exist.")) ∧
    (∀ room : Room, aLookup s.clientRooms ws = none →
      aLookup s.rooms rid = some room →
      validateKey hashKey key room.keyHash = false →
      joinRoom hashKey s ws rid key =
        (s, [], RoomResult.err "INVALID_KEY" "Incorrect room key.")) ∧
    (∀ room : Room, aLookup s.clientRooms ws = none →
      aLookup s.rooms rid = some room →
      validateKey hashKey key room.keyHash = true →
      room.broadcaster = none →
      (joinRoom hashKey s ws rid key).2.2 = RoomResult.ok rid room.name "broadcaster" ∧
      ∃ room', aLookup (joinRoom hashKey s ws rid key).1.rooms rid = some room' ∧
        room'.broadcaster = some ws ∧ room'.viewer = room.viewer) ∧
    (∀ (room : Room) (b : Nat), aLookup s.clientRooms ws = none →
      aLookup s.rooms rid = some room →
      validateKey hashKey key room.keyHash = true →
      room.broadcaster = some b → room.viewer = none →
      (joinRoom hashKey s ws rid key).2.2 = RoomResult.ok rid room.name "viewer" ∧
      ∃ room', aLookup (joinRoom hashKey s ws rid key).1.rooms rid = some room' ∧
        room'.broadcaster = some b ∧ room'.viewer = some ws) ∧
    (∀ (room : Room) (b v : Nat), aLookup s.clientRooms ws = none →
      aLookup s.rooms rid = some room →
      validateKey hashKey key room.keyHash = true →
      room.broadcaster = some b → room.viewer = some v →
      joinRoom hashKey s ws rid key =
        (s, [], RoomResult.err "ROOM_FULL" "Room already has 2 participants.")) := by
  intro hashKey s ws rid key
  refine ⟨?_, ?_, ?_, ?_, ?_, ?_⟩
  · intro h
    cases hcr : aLookup s.clientRooms ws with
    | none => rw [hcr] at h; cases h
    | some rid0 => simp only [joinRoom, hcr]
  · intro hcr hr
    simp only [joinRoom, hcr, hr]
  · intro room hcr hr hkey
    simp only [joinRoom, hcr, hr, if_pos hkey]
  · intro room hcr hr hkey hb
    have hkey' : ¬ validateKey hashKey key room.keyHash = false := by
      rw [hkey]; decide
    constructor
    · simp only [joinRoom, hcr, hr, if_neg hkey', hb]
      exact joinCommit_result s ws rid _ _
    · refine ⟨{ room with broadcaster := some ws, cleanupTimer := none }, ?_, rfl, rfl⟩
      simp only [joinRoom, hcr, hr, if_neg hkey', hb, joinCommit_rooms]
      exact aLookup_aListInsert_self _ _ _
  · intro room b hcr hr hkey hb hv
    have hkey' : ¬ validateKey hashKey key room.keyHash = false := by
      rw [hkey]; decide
    constructor
    · simp only [joinRoom, hcr, hr, if_neg hkey', hb, hv]
      exact joinCommit_result s ws rid _ _
    · refine ⟨{ room with viewer := some ws, cleanupTimer := none }, ?_, hb, rfl⟩
      simp only [joinRoom, hcr, hr, if_neg hkey', hb, hv, joinCommit_rooms]
      exact aLookup_aListInsert_self _ _ _
  · intro room b v hcr hr hkey hb hv
    have hkey' : ¬ validateKey hashKey key room.keyHash = false := by
      rw [hkey]; decide
    simp only [joinRoom, hcr, hr, if_neg hkey', hb, hv]

/-- C3 witness: each precedence case exercised at a concrete state: a bound
joiner, an unknown room, a wrong key, a broadcaster-slot grab, a
viewer-slot grab, and a full room. -/
theorem joinRoom_check_precedence_witness :
    joinRoom demoHash sFull 1 "room-ab12cd34" "hunter2" =
      (sFull, [], RoomResult.err "ALREADY_IN_ROOM" "You are already in a room. Leave first.") ∧
    joinRoom demoHash sFull 3 "room-zzzzzzzz" "hunter2" =
      (sFull, [], RoomResult.err "ROOM_NOT_FOUND" "Room does not exist.") ∧
    joinRoom demoHash sFull 3 "room-ab12cd34" "wrong" =
      (sFull, [], RoomResult.err "INVALID_KEY" "Incorrect room key.") ∧
    (joinRoom demoHash sViewerOnly 1 "room-ab12cd34" "hunter2").2.2 =
      RoomResult.ok "room-ab12cd34" "movie" "broadcaster" ∧
    (joinRoom demoHash sOnly1 2 "room-ab12cd34" "hunter2").2.2 =
      RoomResult.ok "room-ab12cd34" "movie" "viewer" ∧
    joinRoom demoHash sFull 3 "room-ab12cd34" "hunter2" =
      (sFull, [], RoomResult.err "ROOM_FULL" "Room already has 2 participants.") :=
  ⟨(joinRoom_check_precedence demoHash sFull 1 "room-ab12cd34" "hunter2").1 (by decide),
   (joinRoom_check_precedence demoHash sFull 3 "room-zzzzzzzz" "hunter2").2.1
     (by decide) (by decide),
   (joinRoom_check_precedence demoHash sFull 3 "room-ab12cd34" "wrong").2.2.1 roomX
     (by decide) (by decide) (by decide),
   ((joinRoom_check_precedence demoHash sViewerOnly 1 "room-ab12cd34" "hunter2").2.2.2.1 roomV
     (by decide) (by decide) (by decide) (by decide)).1,
   ((joinRoom_check_precedence demoHash sOnly1 2 "room-ab12cd34" "hunter2").2.2.2.2.1 roomOnly1 1
     (by decide) (by decide) (by decide) (by decide) (by decide)).1,
   (joinRoom_check_precedence demoHash sFull 3 "room-ab12cd34" "hunter2").2.2.2.2.2 roomX 1 2
     (by decide) (by decide) (by decide) (by decide) (by decide)⟩


/-- C4: round-trip of the admission secret.  After a successful create with
secret key, any other unbound connection joining with the returned id and
the same secret is admitted as viewer while the creator keeps the
broadcaster slot, and joining with any secret whose digest differs is
rejected with INVALID_KEY. -/
theorem room_key_round_trip :
    ∀ (hashKey : String → String) (s : ServerState) (ws ws2 : Nat)
      (name : Option String) (key key' nid : String),
    s.rooms.length < MAX_ROOMS →
    aLookup s.clientRooms ws = none →
    aLookup s.clientRooms ws2 = none →
    ws2 ≠ ws →
    hashKey key' ≠ hashKey key →
    (createRoom hashKey s ws name key nid).2.2 =
      RoomResult.ok nid (jsStringOr name "Unnamed Room") "broadcaster" ∧
    ((joinRoom hashKey (createRoom hashKey s ws name key nid).1 ws2 nid key).2.2 =
      RoomResult.ok nid (jsStringOr name "Unnamed Room") "viewer" ∧
     ∃ room',
       aLookup (joinRoom hashKey (createRoom hashKey s ws name key nid).1 ws2 nid key).1.rooms
         nid = some room' ∧
       room'.broadcaster = some ws ∧ room'.viewer = some ws2) ∧
    joinRoom hashKey (createRoom hashKey s ws name key nid).1 ws2 nid key' =
      ((createRoom hashKey s ws name key nid).1, [],
       RoomResult.err "INVALID_KEY" "Incorrect room key.") := by
  intro hashKey s ws ws2 name key key' nid hlt hcr hcr2 hne hkeys
  have hlt' : ¬ MAX_ROOMS ≤ s.rooms.length := by omega
  have hc : createRoom hashKey s ws name key nid =
      ({ s with
          rooms := aListInsert s.rooms nid
            { id := nid, name := jsStringOr name "Unnamed Room",
              keyHash := hashKey key, broadcaster := some ws, viewer := none,
              createdAt := s.now, cleanupTimer := none },
          clientRooms := aListInsert s.clientRooms ws nid },
       broadcastRoomList
         { s with
            rooms := aListInsert s.rooms nid
              { id := nid, name := jsStringOr name "Unnamed Room",
                keyHash := hashKey key, broadcaster := some ws, viewer := none,
                createdAt := s.now, cleanupTimer := none },
            clientRooms := aListInsert s.clientRooms ws nid },
       RoomResult.ok nid (jsStringOr name "Unnamed Room") "broadcaster") := by
    simp only [createRoom, if_neg hlt', hcr]
  rw [hc]
  have hcr2' : aLookup (aListInsert s.clientRooms ws nid) ws2 = none := by
    rw [aLookup_aListInsert_ne s.clientRooms ws ws2 nid hne]
    exact hcr2
  have hr' : aLookup
      (aListInsert s.rooms nid
        { id := nid, name := jsStringOr name "Unnamed Room",
          keyHash := hashKey key, broadcaster := some ws, viewer := none,
          createdAt := s.now, cleanupTimer := none }) nid =
      some { id := nid, name := jsStringOr name "Unnamed Room",
             keyHash := hashKey key, broadcaster := some ws, viewer := none,
             createdAt := s.now, cleanupTimer := none } :=
    aLookup_aListInsert_self _ _ _
  have hgood : ¬ validateKey hashKey key (hashKey key) = false := by
    simp [validateKey]
  have hbad : validateKey hashKey key' (hashKey key) = false := by
    simp only [validateKey, beq_eq_false_iff_ne, ne_eq]
    exact hkeys
  refine ⟨rfl, ⟨?_, ?_⟩, ?_⟩
  · simp only [joinRoom, hcr2', hr', if_neg hgood]
    exact joinCommit_result _ _ _ _ _
  · refine ⟨{ id := nid, name := jsStringOr name "Unnamed Room",
              keyHash := hashKey key, broadcaster := some ws, viewer := some ws2,
              createdAt := s.now, cleanupTimer := none }, ?_, rfl, rfl⟩
    simp only [joinRoom, hcr2', hr', if_neg hgood, joinCommit_rooms]
    exact aLookup_aListInsert_self _ _ _
  · simp only [joinRoom, hcr2', hr', if_pos hbad]

/-- C4 witness: the round trip run from a concrete lobby: client 1 creates
with hunter2, client 2 joins with hunter2 as viewer, and a join with a
different secret is rejected. -/
theorem room_key_round_trip_witness :
    (createRoom demoHash sLobby 1 (some "movie") "hunter2" "room-aa11bb22").2.2 =
      RoomResult.ok "room-aa11bb22" "movie" "broadcaster" ∧
    ((joinRoom demoHash (createRoom demoHash sLobby 1 (some "movie") "hunter2"
        "room-aa11bb22").1 2 "room-aa11bb22" "hunter2").2.2 =
      RoomResult.ok "room-aa11bb22" "movie" "viewer" ∧
     ∃ room',
       aLookup (joinRoom demoHash (createRoom demoHash sLobby 1 (some "movie") "hunter2"
           "room-aa11bb22").1 2 "room-aa11bb22" "hunter2").1.rooms
         "room-aa11bb22" = some room' ∧
       room'.broadcaster = some 1 ∧ room'.viewer = some 2) ∧
    joinRoom demoHash (createRoom demoHash sLobby 1 (some "movie") "hunter2"
        "room-aa11bb22").1 2 "room-aa11bb22" "wrong" =
      ((createRoom demoHash sLobby 1 (some "movie") "hunter2" "room-aa11bb22").1, [],
       RoomResult.err "INVALID_KEY" "Incorrect room key.") :=
  room_key_round_trip demoHash sLobby 1 2 (some "movie") "hunter2" "wrong" "room-aa11bb22"
    (by decide) (by decide) (by decide) (by decide) (by decide)

/-- C6: failed admission is atomic and non-fatal: whenever createRoom or
joinRoom returns an error, the dispatcher replies with exactly one
room-error frame carrying that code and a nonempty human-readable message,
the state is completely unchanged (so the connection is still open and
still unbound, no room or slot changed), and in particular no room-list
broadcast is emitted. -/
theorem admission_failure_atomic :
    (∀ (hashKey : String → String) (s : ServerState) (ws : Nat)
       (name : Option String) (key nid code m : String),
      (createRoom hashKey s ws name key nid).2.2 = RoomResult.err code m →
      handleMessage hashKey s ws (ClientMsg.createRoom name key) nid =
        (s, [(ws, Frame.roomError code m)]) ∧
      (code = "ROOM_NOT_FOUND" ∨ code = "INVALID_KEY" ∨ code = "ROOM_FULL" ∨
        code = "MAX_ROOMS" ∨ code = "ALREADY_IN_ROOM") ∧ m ≠ "") ∧
    (∀ (hashKey : String → String) (s : ServerState) (ws : Nat)
       (rid key nid code m : String),
      (joinRoom hashKey s ws rid key).2.2 = RoomResult.err code m →
      handleMessage hashKey s ws (ClientMsg.joinRoom rid key) nid =
        (s, [(ws, Frame.roomError code m)]) ∧
      (code = "ROOM_NOT_FOUND" ∨ code = "INVALID_KEY" ∨ code = "ROOM_FULL" ∨
        code = "MAX_ROOMS" ∨ code = "ALREADY_IN_ROOM") ∧ m ≠ "") := by
  constructor
  · intro hashKey s ws name key nid code m h
    obtain ⟨he, hcode, hm⟩ := createRoom_err_state hashKey s ws name key nid code m h
    refine ⟨?_, ?_, hm⟩
    · simp only [handleMessage, he, List.nil_append]
    · rcases hcode with h1 | h1
      · exact Or.inr (Or.inr (Or.inr (Or.inl h1)))
      · exact Or.inr (Or.inr (Or.inr (Or.inr h1)))
  · intro hashKey s ws rid key nid code m h
    obtain ⟨he, hcode, hm⟩ := joinRoom_err_state hashKey s ws rid key code m h
    refine ⟨?_, ?_, hm⟩
    · simp only [handleMessage, he, List.nil_append]
    · rcases hcode with h1 | h1 | h1 | h1
      · exact Or.inr (Or.inr (Or.inr (Or.inr h1)))
      · exact Or.inl h1
      · exact Or.inr (Or.inl h1)
      · exact Or.inr (Or.inr (Or.inl h1))

/-- C6 witness: a rejected create (creator already bound) and a rejected
join (wrong key) at a concrete state, each answered by a single room-error
frame with the state untouched. -/
theorem admission_failure_atomic_witness :
    (handleMessage demoHash sFull 1 (ClientMsg.createRoom (some "x") "k") "room-0d0d0d0d" =
      (sFull, [(1, Frame.roomError "ALREADY_IN_ROOM" "You are already in a room. Leave first.")]) ∧
     ("ALREADY_IN_ROOM" = "ROOM_NOT_FOUND" ∨ "ALREADY_IN_ROOM" = "INVALID_KEY" ∨
      "ALREADY_IN_ROOM" = "ROOM_FULL" ∨ "ALREADY_IN_ROOM" = "MAX_ROOMS" ∨
      "ALREADY_IN_ROOM" = "ALREADY_IN_ROOM") ∧
     "You are already in a room. Leave first." ≠ "") ∧
    (handleMessage demoHash sFull 3 (ClientMsg.joinRoom "room-ab12cd34" "wrong") "" =
      (sFull, [(3, Frame.roomError "INVALID_KEY" "Incorrect room key.")]) ∧
     ("INVALID_KEY" = "ROOM_NOT_FOUND" ∨ "INVALID_KEY" = "INVALID_KEY" ∨
      "INVALID_KEY" = "ROOM_FULL" ∨ "INVALID_KEY" = "MAX_ROOMS" ∨
      "INVALID_KEY" = "ALREADY_IN_ROOM") ∧
     "Incorrect room key." ≠ "") :=
  ⟨admission_failure_atomic.1 demoHash sFull 1 (some "x") "k" "room-0d0d0d0d"
     "ALREADY_IN_ROOM" "You are already in a room. Leave first." (by decide),
   admission_failure_atomic.2 demoHash sFull 3 "room-ab12cd34" "wrong" ""
     "INVALID_KEY" "Incorrect room key." (by decide)⟩


/-- C8: deferred cleanup is correct and cancelable.  The grace period is
60000 ms; when the last occupant leaves, the room record gets deadline
now + grace with both slots empty; when the timer body runs it destroys the
room only if both slots are still empty (an occupied room is left exactly
as it was, so a room is never destroyed while a slot is occupied); and any
successful join yields a room record with no pending timer. -/
theorem cleanup_schedule_cancel_fire :
    ROOM_CLEANUP_TIMEOUT = 60000 ∧
    (∀ (s : ServerState) (ws : Nat) (rid : String) (room : Room),
      aLookup s.clientRooms ws = some rid →
      aLookup s.rooms rid = some room →
      ((room.broadcaster = some ws ∧ room.viewer = none) ∨
       (room.broadcaster = none ∧ room.viewer = some ws)) →
      ∃ room', aLookup (leaveRoom s ws).1.rooms rid = some room' ∧
        room'.broadcaster = none ∧ room'.viewer = none ∧
        room'.cleanupTimer = some (s.now + ROOM_CLEANUP_TIMEOUT)) ∧
    (∀ (s : ServerState) (rid : String) (room : Room),
      aLookup s.rooms rid = some room →
      (room.broadcaster ≠ none ∨ room.viewer ≠ none) →
      fireCleanup s rid = (s, [])) ∧
    (∀ (s : ServerState) (rid : String) (room : Room),
      (s.rooms.map Prod.fst).Nodup →
      aLookup s.rooms rid = some room →
      room.broadcaster = none → room.viewer = none →
      aLookup (fireCleanup s rid).1.rooms rid = none) ∧
    (∀ (hashKey : String → String) (s : ServerState) (ws : Nat)
       (rid key : String) (room : Room),
      aLookup s.clientRooms ws = none →
      aLookup s.rooms rid = some room →
      validateKey hashKey key room.keyHash = true →
      (room.broadcaster = none ∨ room.viewer = none) →
      ∃ (room' : Room) (role : String),
        (joinRoom hashKey s ws rid key).2.2 = RoomResult.ok rid room.name role ∧
        aLookup (joinRoom hashKey s ws rid key).1.rooms rid = some room' ∧
        room'.cleanupTimer = none) := by
  refine ⟨rfl, ?_, ?_, ?_, ?_⟩
  · intro s ws rid room hcr hr hlast
    rcases hlast with ⟨hb, hv⟩ | ⟨hb, hv⟩
    · exact ⟨_, leaveRoom_last_broadcaster s ws rid room hcr hr hb hv, rfl, hv, rfl⟩
    · exact ⟨_, leaveRoom_last_viewer s ws rid room hcr hr hb hv, hb, rfl, rfl⟩
  · intro s rid room hr hocc
    simp only [fireCleanup, hr]
    rw [if_neg (by tauto)]
  · intro s rid room hnd hr hb hv
    simp only [fireCleanup, hr, hb, hv, and_self, if_pos]
    exact aLookup_eraseKey_self _ _ hnd
  · intro hashKey s ws rid key room hcr hr hkey hfree
    exact joinRoom_ok_cancels_timer hashKey s ws rid key room hcr hr hkey hfree

/-- C8 witness: the leave of the last occupant sets the deadline at a
concrete state; firing in a still-occupied room (full room) does nothing;
firing in an empty room removes it; and a concrete join yields a record
with no pending timer. -/
theorem cleanup_schedule_cancel_fire_witness :
    (∃ room', aLookup (leaveRoom sOnly1 1).1.rooms "room-ab12cd34" = some room' ∧
      room'.broadcaster = none ∧ room'.viewer = none ∧
      room'.cleanupTimer = some (sOnly1.now + ROOM_CLEANUP_TIMEOUT)) ∧
    fireCleanup sFull "room-ab12cd34" = (sFull, []) ∧
    aLookup (fireCleanup sPending "room-ab12cd34").1.rooms "room-ab12cd34" = none ∧
    (∃ (room' : Room) (role : String),
      (joinRoom demoHash sPending 2 "room-ab12cd34" "hunter2").2.2 =
        RoomResult.ok "room-ab12cd34" "movie" role ∧
      aLookup (joinRoom demoHash sPending 2 "room-ab12cd34" "hunter2").1.rooms
        "room-ab12cd34" = some room' ∧
      room'.cleanupTimer = none) :=
  ⟨cleanup_schedule_cancel_fire.2.1 sOnly1 1 "room-ab12cd34" roomOnly1
     (by decide) (by decide) (Or.inl ⟨by decide, by decide⟩),
   cleanup_schedule_cancel_fire.2.2.1 sFull "room-ab12cd34" roomX
     (by decide) (Or.inl (by decide)),
   cleanup_schedule_cancel_fire.2.2.2.1 sPending "room-ab12cd34"
     { id := "room-ab12cd34", name := "movie", keyHash := demoHash "hunter2",
       broadcaster := none, viewer := none, createdAt := 0,
       cleanupTimer := some 61000 }
     (by decide) (by decide) (by decide) (by decide),
   cleanup_schedule_cancel_fire.2.2.2.2 demoHash sPending 2 "room-ab12cd34" "hunter2"
     { id := "room-ab12cd34", name := "movie", keyHash := demoHash "hunter2",
       broadcaster := none, viewer := none, createdAt := 0,
       cleanupTimer := some 61000 }
     (by decide) (by decide) (by decide) (Or.inl (by decide))⟩

/-- C9: every room-list entry is built by roomListEntry and so has exactly
the fields id, name, participants and isFull; participants counts the
occupied slots and never exceeds 2; isFull holds exactly when both slots
are occupied; and the entry depends only on the id, the display name and
the occupancy of the two slots — in particular it is unchanged when the
stored digest or the connections occupying the slots are replaced, so no
secret digest and no connection identifier is carried. -/
theorem room_list_snapshot_shape :
    (∀ s : ServerState, getRoomList s = s.rooms.map roomListEntry) ∧
    (∀ p : String × Room,
      roomListEntry p =
        { id := p.1, name := p.2.name, participants := participantCount p.2,
          isFull := decide (participantCount p.2 ≥ 2) }) ∧
    (∀ room : Room, participantCount room ≤ 2) ∧
    (∀ p : String × Room,
      ((roomListEntry p).isFull = true ↔
        p.2.broadcaster.isSome = true ∧ p.2.viewer.isSome = true) ∧
      ((roomListEntry p).participants = 2 ↔
        p.2.broadcaster.isSome = true ∧ p.2.viewer.isSome = true)) ∧
    (∀ (id : String) (r1 r2 : Room), r1.name = r2.name →
      r1.broadcaster.isSome = r2.broadcaster.isSome →
      r1.viewer.isSome = r2.viewer.isSome →
      roomListEntry (id, r1) = roomListEntry (id, r2)) := by
  refine ⟨fun s => rfl, fun p => rfl, ?_, ?_, ?_⟩
  · intro room
    unfold participantCount
    cases room.broadcaster.isSome <;> cases room.viewer.isSome <;> simp
  · intro p
    unfold roomListEntry participantCount
    cases hb : p.2.broadcaster.isSome <;> cases hv : p.2.viewer.isSome <;> simp
  · intro id r1 r2 h1 h2 h3
    unfold roomListEntry participantCount
    rw [h1, h2, h3]

/-- C9 witness: the same snapshot entry results when the digest is replaced
and different connections occupy the slots of the concrete full room. -/
theorem room_list_snapshot_shape_witness :
    participantCount roomX ≤ 2 ∧
    ((roomListEntry ("room-ab12cd34", roomX)).isFull = true ↔
      roomX.broadcaster.isSome = true ∧ roomX.viewer.isSome = true) ∧
    roomListEntry ("room-ab12cd34", roomX) =
      roomListEntry ("room-ab12cd34",
        { roomX with keyHash := demoHash "other-secret",
                     broadcaster := some 9, viewer := some 10 }) :=
  ⟨room_list_snapshot_shape.2.2.1 roomX,
   (room_list_snapshot_shape.2.2.2.1 ("room-ab12cd34", roomX)).1,
   room_list_snapshot_shape.2.2.2.2 "room-ab12cd34" roomX
     { roomX with keyHash := demoHash "other-secret",
                  broadcaster := some 9, viewer := some 10 }
     (by decide) (by decide) (by decide)⟩


/-- C2 counterexample: the claim says a signaling frame is forwarded to the
slot opposite the sender and never back to the sender.  At the concrete
full room (broadcaster 1, viewer 2), connection 2 — the viewer — sends an
offer, and the code delivers that offer to connection 2 itself, not to the
opposite slot 1. -/
theorem offer_routed_back_to_sender :
    roomX.broadcaster = some 1 ∧ roomX.viewer = some 2 ∧
    aLookup sFull.clientRooms 2 = some "room-ab12cd34" ∧
    handleMessage demoHash sFull 2 (ClientMsg.offer none "sdp") "" =
      (sFull, [(2, Frame.offer "sdp")]) ∧
    (2 : Nat) ≠ 1 := by
  decide

/-- C2 amended: what the relay actually does for a bound sender.  An offer
is always forwarded to the viewer slot and an answer always to the
broadcaster slot, whichever slot the sender occupies; only ice-candidate is
routed to the slot opposite the sender's.  On delivery towards the
broadcaster the sender's connection id is always inserted (replacing any id
the incoming frame carried); towards the viewer no id is ever attached.
The opaque payload field is forwarded verbatim, and when the target slot is
empty (or an ice-candidate sender occupies no slot) the frame is dropped
silently with no reply and no state change. -/
theorem signaling_relay_actual :
    ∀ (hashKey : String → String) (s : ServerState) (ws : Nat)
      (rid nid p : String) (vid : Option String) (room : Room),
    aLookup s.clientRooms ws = some rid →
    aLookup s.rooms rid = some room →
    ((∀ v : Nat, room.viewer = some v →
       handleMessage hashKey s ws (ClientMsg.offer vid p) nid =
         (s, [(v, Frame.offer p)])) ∧
     (room.viewer = none →
       handleMessage hashKey s ws (ClientMsg.offer vid p) nid = (s, [])) ∧
     (∀ (b : Nat) (cid : String), room.broadcaster = some b →
       aLookup s.clientIds ws = some cid →
       handleMessage hashKey s ws (ClientMsg.answer p) nid =
         (s, [(b, Frame.answer cid p)])) ∧
     (room.broadcaster = none →
       handleMessage hashKey s ws (ClientMsg.answer p) nid = (s, [])) ∧
     (∀ v : Nat, room.broadcaster = some ws → room.viewer = some v →
       handleMessage hashKey s ws (ClientMsg.iceCandidate vid p) nid =
         (s, [(v, Frame.iceCandidate none p)])) ∧
     (∀ (b : Nat) (cid : String), room.broadcaster = some b → b ≠ ws →
       room.viewer = some ws → aLookup s.clientIds ws = some cid →
       handleMessage hashKey s ws (ClientMsg.iceCandidate vid p) nid =
         (s, [(b, Frame.iceCandidate (some cid) p)])) ∧
     (room.broadcaster ≠ some ws → room.viewer ≠ some ws →
       handleMessage hashKey s ws (ClientMsg.iceCandidate vid p) nid = (s, [])) ∧
     (room.broadcaster = some ws → room.viewer = none →
       handleMessage hashKey s ws (ClientMsg.iceCandidate vid p) nid = (s, [])) ∧
     (room.broadcaster = none → room.viewer = some ws →
       handleMessage hashKey s ws (ClientMsg.iceCandidate vid p) nid = (s, []))) := by
  intro hashKey s ws rid nid p vid room hcr hr
  refine ⟨?_, ?_, ?_, ?_, ?_, ?_, ?_, ?_, ?_⟩
  · intro v hv
    simp only [handleMessage, hcr, hr, hv]
  · intro hv
    simp only [handleMessage, hcr, hr, hv]
  · intro b cid hb hcid
    simp only [handleMessage, hcr, hr, hb, getClientId_of_known s ws cid hcid]
  · intro hb
    simp only [handleMessage, hcr, hr, hb]
  · intro v hb hv
    simp only [handleMessage, hcr, hr, if_pos hb, hv]
  · intro b cid hb hbne hv hcid
    have hbs : ¬ ((some b : Option Nat) = some ws) := by
      intro hx
      injection hx with hx'
      exact hbne hx'
    simp only [handleMessage, hcr, hr, hb, if_neg hbs, if_pos hv,
      getClientId_of_known s ws cid hcid]
  · intro h1 h2
    simp only [handleMessage, hcr, hr, if_neg h1, if_neg h2]
  · intro hb hv
    simp only [handleMessage, hcr, hr, if_pos hb, hv]
  · intro hb hv
    simp only [handleMessage, hcr, hr, hb, hv, reduceCtorEq, if_false, if_pos rfl]
    simp

/-- C2 amended witness: the routing rules applied at concrete states: a
viewer offer still lands on the viewer slot, an answer lands on the
broadcaster with the sender id inserted, the two ice-candidate directions,
a dropped offer when the viewer slot is empty, and dropped ice-candidates
from each slot when the opposite slot is empty. -/
theorem signaling_relay_actual_witness :
    handleMessage demoHash sFull 2 (ClientMsg.offer none "sdpO") "" =
      (sFull, [(2, Frame.offer "sdpO")]) ∧
    handleMessage demoHash sFull 2 (ClientMsg.answer "sdpA") "" =
      (sFull, [(1, Frame.answer "client-2" "sdpA")]) ∧
    handleMessage demoHash sFull 1 (ClientMsg.iceCandidate none "candB") "" =
      (sFull, [(2, Frame.iceCandidate none "candB")]) ∧
    handleMessage demoHash sFull 2 (ClientMsg.iceCandidate (some "client-9") "candV") "" =
      (sFull, [(1, Frame.iceCandidate (some "client-2") "candV")]) ∧
    handleMessage demoHash sOnly1 1 (ClientMsg.offer none "sdpX") "" = (sOnly1, []) ∧
    handleMessage demoHash sOnly1 1 (ClientMsg.iceCandidate none "candX") "" =
      (sOnly1, []) ∧
    handleMessage demoHash sViewerOnly 2 (ClientMsg.iceCandidate none "candY") "" =
      (sViewerOnly, []) :=
  ⟨(signaling_relay_actual demoHash sFull 2 "room-ab12cd34" "" "sdpO" none roomX
      (by decide) (by decide)).1 2 (by decide),
   (signaling_relay_actual demoHash sFull 2 "room-ab12cd34" "" "sdpA" none roomX
      (by decide) (by decide)).2.2.1 1 "client-2" (by decide) (by decide),
   (signaling_relay_actual demoHash sFull 1 "room-ab12cd34" "" "candB" none roomX
      (by decide) (by decide)).2.2.2.2.1 2 (by decide) (by decide),
   (signaling_relay_actual demoHash sFull 2 "room-ab12cd34" "" "candV" (some "client-9") roomX
      (by decide) (by decide)).2.2.2.2.2.1 1 "client-2" (by decide) (by decide)
      (by decide) (by decide),
   (signaling_relay_actual demoHash sOnly1 1 "room-ab12cd34" "" "sdpX" none roomOnly1
      (by decide) (by decide)).2.1 (by decide),
   (signaling_relay_actual demoHash sOnly1 1 "room-ab12cd34" "" "candX" none roomOnly1
      (by decide) (by decide)).2.2.2.2.2.2.2.1 (by decide) (by decide),
   (signaling_relay_actual demoHash sViewerOnly 2 "room-ab12cd34" "" "candY" none roomV
      (by decide) (by decide)).2.2.2.2.2.2.2.2 (by decide) (by decide)⟩


end StreamHQ
